import Mathlib

/-!
# Verification of the highlight-RAG repository core

A shallow embedding of the repository's core logic:

* `src/data_ingestion/ingest.py` — `process_highlights_to_documents`,
  the normalizer turning raw Readwise export data into LlamaIndex
  `Document` objects, deduplicating by highlight id;
* `src/data_ingestion/readwise_client.py` — `fetch_all_highlights`,
  the paginated fetch loop with rate-limit retry;
* `src/rag_pipeline/pipeline.py` — `setup_pipeline` /
  `query_knowledge_base`, the lazily-cached query pipeline.

Python dicts holding scalar-or-null metadata are embedded as association
lists `List (String × Option Value)`; a `none` value stands for Python
`None`.  External constructors that may raise (the `Document`
constructor, the model/store/index builders, the query engine) are
embedded as oracle parameters returning `Option`/`Except`, so the
`try/except` structure of the Python code is visible in the model.
-/

namespace RagCore

/-- A scalar Python metadata value: a string or an integer. -/
inductive Value where
  | str : String → Value
  | int : Int → Value
deriving DecidableEq, Repr

/-- A Readwise tag object; the code only reads its `name` field. -/
structure Tag where
  name : String
deriving DecidableEq, Repr

/-- A raw highlight record nested inside a source, as read by
`process_highlights_to_documents`: `id` may be missing (`none`), `text`
and `note` default to `""` when absent, the remaining scalar fields may
be null. -/
structure Highlight where
  id : Option Int
  text : String
  note : String
  highlighted_at : Option Value
  url : Option Value
  updated_at : Option Value
  color : Option Value
  tags : List Tag
deriving DecidableEq, Repr

/-- A raw source (book/article) record from the Readwise `/export`
endpoint, restricted to the fields the normalizer reads. -/
structure Source where
  user_book_id : Option Value
  title : Option Value
  author : Option Value
  readable_title : Option Value
  source : Option Value
  cover_image_url : Option Value
  unique_url : Option Value
  category : Option Value
  document_note : Option Value
  book_tags : List Tag
  highlights : List Highlight
deriving DecidableEq, Repr

/-- A LlamaIndex `Document` as constructed by the normalizer: the body
text, the metadata dict (values still typed as possibly-null to mirror
the Python dict), and the `id_` string. -/
structure Document where
  text : String
  metadata : List (String × Option Value)
  id_ : String
deriving DecidableEq, Repr

/-- `", ".join(tag['name'] for tag in tags)`; the code returns `""` for
an empty tag list, which `String.intercalate` does as well. -/
def joinTags (tags : List Tag) : String :=
  String.intercalate ", " (tags.map Tag.name)

/-- Lines 40–46 of `ingest.py`: the whitelisted source-level fields that
are non-null, followed by `book_tags` flattened to a string (empty
string when there are no tags). -/
def commonMetadata (s : Source) : List (String × Option Value) :=
  ([("user_book_id", s.user_book_id), ("title", s.title),
    ("author", s.author), ("readable_title", s.readable_title),
    ("source", s.source), ("cover_image_url", s.cover_image_url),
    ("unique_url", s.unique_url), ("category", s.category),
    ("document_note", s.document_note)].filter (fun kv => kv.2.isSome))
  ++ [("book_tags", some (Value.str (joinTags s.book_tags)))]

/-- Python's `not text.strip()` test of line 62 of `ingest.py`:
`text.strip()` is falsy exactly when every character of `text` is
whitespace (including the empty string). -/
def isBlank (s : String) : Bool :=
  s.data.all Char.isWhitespace

/-- Lines 67–70 of `ingest.py`: the document body is the highlight text,
with `"\n\nNote: " + note` appended iff the note is non-empty. -/
def documentText (h : Highlight) : String :=
  if h.note = "" then h.text else h.text ++ "\n\nNote: " ++ h.note

/-- Lines 72–85 of `ingest.py`: the per-highlight metadata dict — the
source-level metadata updated with the highlight-level fields, with
null-valued entries stripped afterwards. -/
def highlightMetadata (common : List (String × Option Value))
    (h : Highlight) (hid : Int) : List (String × Option Value) :=
  (common ++
   [("highlight_id", some (Value.int hid)),
    ("highlighted_at", h.highlighted_at),
    ("highlight_url", h.url),
    ("updated_at", h.updated_at),
    ("color", h.color),
    ("highlight_tags", some (Value.str (joinTags h.tags)))]).filter
      (fun kv => kv.2.isSome)

/-- The LlamaIndex `Document` constructor when it does not raise. -/
def mkDocument (t : String) (m : List (String × Option Value))
    (i : String) : Option Document :=
  some ⟨t, m, i⟩

/-- Lines 51–99 of `ingest.py`: processing of one raw highlight against
the running state `(llama_documents, processed_highlight_ids)`.
`construct` is the (possibly raising, hence `Option`-valued)
`Document` constructor; on construction failure the document is not
appended and the id is not marked processed (the `try` block).
A missing or zero id is Python-falsy and skipped without marking. -/
def processHighlight
    (construct : String → List (String × Option Value) → String → Option Document)
    (common : List (String × Option Value))
    (st : List Document × List Int) (h : Highlight) :
    List Document × List Int :=
  match h.id with
  | none => st
  | some hid =>
    if hid = 0 then st
    else if hid ∈ st.2 then st
    else if isBlank h.text then (st.1, hid :: st.2)
    else
      match construct (documentText h) (highlightMetadata common h hid)
          ("readwise_highlight_" ++ toString hid) with
      | some d => (st.1 ++ [d], hid :: st.2)
      | none => st

/-- The inner loop of `process_highlights_to_documents` over one
source's highlights (the seen-id set is shared across sources). -/
def processSource
    (construct : String → List (String × Option Value) → String → Option Document)
    (st : List Document × List Int) (s : Source) :
    List Document × List Int :=
  s.highlights.foldl (processHighlight construct (commonMetadata s)) st

/-- `process_highlights_to_documents` (lines 22–102 of `ingest.py`):
fold over all sources starting from no documents and an empty seen-id
set, returning the accumulated documents. -/
def process_highlights_to_documents
    (construct : String → List (String × Option Value) → String → Option Document)
    (raw_export_data : List Source) : List Document :=
  (raw_export_data.foldl (processSource construct) ([], [])).1

/-- All raw highlights of an export in traversal order (source order,
then highlight order within each source). -/
def traversal (raw : List Source) : List Highlight :=
  raw.flatMap (fun s => s.highlights)

/-- The traversal paired with each highlight's source-level metadata;
folding the per-highlight step over this list is exactly the nested
loop of the normalizer. -/
def flatPairs (raw : List Source) :
    List (List (String × Option Value) × Highlight) :=
  raw.flatMap (fun s => s.highlights.map (fun h => (commonMetadata s, h)))

/-- The per-highlight step reshaped to consume `flatPairs` elements. -/
def step2
    (construct : String → List (String × Option Value) → String → Option Document)
    (st : List Document × List Int)
    (p : List (String × Option Value) × Highlight) :
    List Document × List Int :=
  processHighlight construct p.1 st p.2

/-- The `highlight_id` metadata entry of a document. -/
def docHid (d : Document) : Option (Option Value) :=
  d.metadata.lookup "highlight_id"

/-- Whether a document carries highlight id `hid`. -/
def hidMatches (hid : Int) (d : Document) : Bool :=
  decide (docHid d = some (some (Value.int hid)))

/-! ## The paginated fetch loop (`readwise_client.py`) -/

/-- One HTTP response observed by `fetch_all_highlights`: a 429 with an
optional parsed `Retry-After` header, any other request failure (a
4xx/5xx raised by `raise_for_status`, a network error, or a body that
fails to parse), or a successful page with its results and optional
`nextPageCursor`. -/
inductive FetchResponse where
  | rateLimited (retryAfter : Option Nat)
  | failure
  | ok (results : List Source) (next : Option String)
deriving DecidableEq, Repr

/-- `fetch_all_highlights` (lines 28–86 of `readwise_client.py`),
driven by the scripted sequence of responses the server returns for the
successive requests of the `while True` loop.  The state is
`(full_data, next_page_cursor)`.  The result pairs the returned
`full_data` with the list of sleeps performed (one entry per 429, each
the server-supplied `Retry-After` or the default 60).  A 429 retries
with the state unchanged (same cursor, same accumulated data); any
other failure breaks the loop and returns the accumulated data; a page
without a `nextPageCursor` ends the loop normally. -/
def fetch_all_highlights :
    List FetchResponse → List Source × Option String →
    List Source × List Nat
  | [], st => (st.1, [])
  | r :: rest, st =>
    match r with
    | .rateLimited ra =>
      let out := fetch_all_highlights rest st
      (out.1, ra.getD 60 :: out.2)
    | .failure => (st.1, [])
    | .ok results next =>
      let acc := st.1 ++ results
      match next with
      | none => (acc, [])
      | some c => fetch_all_highlights rest (acc, some c)

/-! ## The query pipeline lifecycle (`pipeline.py`) -/

/-- The LlamaIndex query engine handle cached in
`_query_engine_global`: the index it wraps and the `similarity_top_k`
it was created with. -/
structure Engine where
  idxVal : Nat
  top_k : Nat
deriving DecidableEq, Repr

/-- The mutable process state of `pipeline.py`: the cached global
engine, plus observation counters — `tries` counts entries into the
construction path, and one counter per expensive construction step
(`get_embedding_model`, `get_llm`, `get_vector_store`,
`VectorStoreIndex.from_vector_store`, `index.as_query_engine`). -/
structure PipeState where
  cached : Option Engine
  tries : Nat
  embedCalls : Nat
  llmCalls : Nat
  storeCalls : Nat
  indexCalls : Nat
  engineCalls : Nat
deriving DecidableEq, Repr

/-- The process state at module load: nothing cached, no work done. -/
def initPipeState : PipeState := ⟨none, 0, 0, 0, 0, 0, 0⟩

/-- Test doubles for the five construction steps, indexed by the
attempt number so a step may fail on one call and succeed on a later
one; `none` / `true` means the step raises. -/
structure Builders where
  embed : Nat → Option Nat
  llm : Nat → Option Nat
  store : Nat → Option Nat
  indexFails : Nat → Bool
  engineFails : Nat → Bool

/-- `setup_pipeline` (lines 29–68 of `pipeline.py`).  If the global is
already set, return it untouched.  Otherwise run the construction
steps in program order; a raising step propagates (`Except.error`)
leaving the global unset; on success the engine is built with the
given `similarity_top_k` and cached. -/
def setup_pipeline (b : Builders) (similarity_top_k : Nat)
    (st : PipeState) : Except Unit Engine × PipeState :=
  match st.cached with
  | some e => (.ok e, st)
  | none =>
    let t := st.tries
    let st1 : PipeState :=
      { st with tries := t + 1, embedCalls := st.embedCalls + 1 }
    match b.embed t with
    | none => (.error (), st1)
    | some _ =>
      let st2 := { st1 with llmCalls := st1.llmCalls + 1 }
      match b.llm t with
      | none => (.error (), st2)
      | some _ =>
        let st3 := { st2 with storeCalls := st2.storeCalls + 1 }
        match b.store t with
        | none => (.error (), st3)
        | some sv =>
          let st4 := { st3 with indexCalls := st3.indexCalls + 1 }
          if b.indexFails t then (.error (), st4)
          else
            let st5 := { st4 with engineCalls := st4.engineCalls + 1 }
            if b.engineFails t then (.error (), st5)
            else
              let e : Engine := ⟨sv, similarity_top_k⟩
              (.ok e, { st5 with cached := some e })

/-- Iterated sequential calls of `setup_pipeline` (state only). -/
def setupIter (b : Builders) (k : Nat) : Nat → PipeState → PipeState
  | 0, st => st
  | n + 1, st => setupIter b k n (setup_pipeline b k st).2

/-- The response object returned by `query_engine.query`: the optional
`response` attribute and the object's string representation used as
fallback by `getattr(response, 'response', str(response))`. -/
structure QueryResponse where
  response : Option String
  asString : String
deriving DecidableEq, Repr

/-- Line 106 of `pipeline.py`: extract the answer text, falling back to
the string representation, then strip surrounding whitespace. -/
def extractResponseText (r : QueryResponse) : String :=
  (match r.response with
   | some s => s
   | none => r.asString).trim

/-- The fixed user-safe apology string of line 114 of `pipeline.py`. -/
def apologyText : String :=
  "Sorry, I encountered an error while processing your query."

/-- `query_knowledge_base` (lines 70–114 of `pipeline.py`).
`runQuery` is the oracle for `query_engine.query` (and the subsequent
logging), which may raise.  The whole body is wrapped in
`try/except`: a failure of the implicit `setup_pipeline()` call (made
with the default `similarity_top_k = 5`) or of the query itself is
caught and the apology string returned. -/
def query_knowledge_base (b : Builders)
    (runQuery : Engine → String → Except Unit QueryResponse)
    (query_text : String) (st : PipeState) : String × PipeState :=
  match setup_pipeline b 5 st with
  | (.error _, st') => (apologyText, st')
  | (.ok e, st') =>
    match runQuery e query_text with
    | .error _ => (apologyText, st')
    | .ok r => (extractResponseText r, st')

/-! ## Specification-side counting functions (for C5) -/

/-- Python truthiness of a raw highlight id: present and non-zero. -/
def truthyId : Option Int → Bool
  | none => false
  | some n => decide (n ≠ 0)

/-- All truthy ids occurring among a list of raw highlights, with
multiplicity, in order. -/
def truthyIds (l : List Highlight) : List Int :=
  (l.filterMap Highlight.id).filter (fun i => decide (i ≠ 0))

/-- The first raw highlight in `l` whose id is `some hid`. -/
def firstWithId (l : List Highlight) (hid : Int) : Option Highlight :=
  l.find? (fun h => h.id == some hid)

/-- Whether id `hid` is admitted by the first-occurrence-wins policy:
some highlight in `l` carries it and the first one to do so has
non-blank text. -/
def admittedId (l : List Highlight) (hid : Int) : Bool :=
  match firstWithId l hid with
  | some h => !(isBlank h.text)
  | none => false

/-- The count that claim C5 literally asks for: the number of distinct
ids among the highlights that have a truthy id and non-blank text. -/
def naiveDistinctCount (raw : List Source) : Nat :=
  (((traversal raw).filter
      (fun h => truthyId h.id && !(isBlank h.text))).filterMap
    Highlight.id).dedup.length

/-- The document count produced by the dedup loop over a flat list of
raw highlights, given an initial seen-id set: mirrors the branch
structure of `processHighlight`, counting instead of accumulating. -/
def opCount : List Highlight → List Int → Nat
  | [], _ => 0
  | h :: t, seen =>
    match h.id with
    | none => opCount t seen
    | some hid =>
      if hid = 0 then opCount t seen
      else if hid ∈ seen then opCount t seen
      else if isBlank h.text then opCount t (hid :: seen)
      else 1 + opCount t (hid :: seen)

/-! ## Concrete fixtures -/

/-- A blank-text highlight with id 1 (three spaces). -/
def hlBlankFirst : Highlight := ⟨some 1, "   ", "", none, none, none, none, []⟩

/-- A non-blank highlight that reuses id 1. -/
def hlRealLater : Highlight := ⟨some 1, "real text", "", none, none, none, none, []⟩

/-- A source whose first highlight with id 1 is blank and whose second
one has real text. -/
def srcBlankFirst : Source :=
  ⟨none, none, none, none, none, none, none, none, none, [],
    [hlBlankFirst, hlRealLater]⟩

/-- The two-highlight scenario of §8 of the spec: "Book A" with two
highlights sharing id 1. -/
def hlHi : Highlight := ⟨some 1, "hi", "", none, none, none, none, []⟩

/-- Second highlight of the §8 scenario, a duplicate of id 1. -/
def hlHiAgain : Highlight := ⟨some 1, "hi again", "", none, none, none, none, []⟩

/-- The §8 scenario source. -/
def srcBookA : Source :=
  ⟨none, some (.str "Book A"), none, none, none, none, none, none, none, [],
    [hlHi, hlHiAgain]⟩

/-- The single document the normalizer produces for the §8 scenario. -/
def docHi : Document :=
  ⟨"hi",
   [("title", some (Value.str "Book A")), ("book_tags", some (Value.str "")),
    ("highlight_id", some (Value.int 1)),
    ("highlight_tags", some (Value.str ""))],
   "readwise_highlight_1"⟩

/-- A `Document` constructor test double that raises exactly on body
text `"a"`. -/
def failOnA (t : String) (m : List (String × Option Value))
    (i : String) : Option Document :=
  if t = "a" then none else some ⟨t, m, i⟩

/-- A highlight (id 5, text "a") whose document construction fails
under `failOnA`. -/
def hlFailA : Highlight := ⟨some 5, "a", "", none, none, none, none, []⟩

/-- A later highlight reusing id 5 whose construction succeeds. -/
def hlOkB : Highlight := ⟨some 5, "b", "", none, none, none, none, []⟩

/-- Source for the construction-failure scenario of C9. -/
def srcRetrySameId : Source :=
  ⟨none, none, none, none, none, none, none, none, none, [],
    [hlFailA, hlOkB]⟩

/-- Builders whose five construction steps always succeed. -/
def bAllOk : Builders :=
  ⟨fun _ => some 1, fun _ => some 1, fun _ => some 7,
   fun _ => false, fun _ => false⟩

/-- Builders whose embedding-model step raises on the first attempt and
succeeds afterwards. -/
def bFailThenOk : Builders :=
  ⟨fun t => if t = 0 then none else some 1, fun _ => some 1,
   fun _ => some 7, fun _ => false, fun _ => false⟩

/-! ## Helper lemmas about metadata association lists -/

theorem lookup_eq_none_of_not_mem {α : Type} (k : String) :
    ∀ l : List (String × α), k ∉ l.map Prod.fst → l.lookup k = none
  | [], _ => rfl
  | (k1, _) :: rest, h => by
    simp only [List.map_cons, List.mem_cons, not_or] at h
    have hne : (k == k1) = false := beq_eq_false_iff_ne.mpr h.1
    simp [List.lookup, hne, lookup_eq_none_of_not_mem k rest h.2]

theorem lookup_append_of_left_none {α : Type} (k : String) :
    ∀ l1 l2 : List (String × α), l1.lookup k = none →
      (l1 ++ l2).lookup k = l2.lookup k
  | [], _, _ => by simp
  | (k1, v1) :: rest, l2, h => by
    cases hk : (k == k1) with
    | false =>
      simp only [List.cons_append, List.lookup, hk] at h ⊢
      exact lookup_append_of_left_none k rest l2 h
    | true =>
      simp only [List.lookup, hk] at h
      exact Option.noConfusion h

theorem mem_map_fst_of_filter {α β : Type} (p : α × β → Bool) {x : α}
    {l : List (α × β)} (h : x ∈ (l.filter p).map Prod.fst) :
    x ∈ l.map Prod.fst := by
  rcases List.mem_map.mp h with ⟨kv, hkv, rfl⟩
  exact List.mem_map_of_mem _ (List.mem_of_mem_filter hkv)

/-- The source-level metadata never contains the key `highlight_id`. -/
theorem highlight_id_not_key (s : Source) :
    "highlight_id" ∉ (commonMetadata s).map Prod.fst := by
  intro hmem
  simp only [commonMetadata, List.map_append, List.mem_append] at hmem
  rcases hmem with hmem | hmem
  · have h2 := mem_map_fst_of_filter _ hmem
    simp only [List.map_cons, List.map_nil] at h2
    revert h2
    decide
  · simp only [List.map_cons, List.map_nil, List.mem_cons,
      List.not_mem_nil, or_false] at hmem
    exact absurd hmem (by decide)

/-- The metadata of a produced document records the highlight's id
under the `highlight_id` key. -/
theorem lookup_highlightMetadata (common : List (String × Option Value))
    (h : Highlight) (hid : Int)
    (hk : "highlight_id" ∉ common.map Prod.fst) :
    (highlightMetadata common h hid).lookup "highlight_id" =
      some (some (Value.int hid)) := by
  unfold highlightMetadata
  rw [List.filter_append]
  rw [lookup_append_of_left_none _ _ _
    (lookup_eq_none_of_not_mem _ _ (fun hx => hk (mem_map_fst_of_filter _ hx)))]
  simp [List.filter_cons, List.lookup]

/-- The document built for a highlight with id `hid'` matches the query
id `hid` exactly when the two ids are equal. -/
theorem hidMatches_mk (common : List (String × Option Value))
    (h : Highlight) (hid' hid : Int)
    (hk : "highlight_id" ∉ common.map Prod.fst) :
    hidMatches hid ⟨documentText h, highlightMetadata common h hid',
      "readwise_highlight_" ++ toString hid'⟩ = decide (hid' = hid) := by
  unfold hidMatches docHid
  rw [lookup_highlightMetadata common h hid' hk]
  rw [decide_eq_decide]
  constructor
  · intro hx
    have := Option.some.injEq _ _ ▸ hx
    simp_all
  · intro hx
    rw [hx]

/-! ## Flattening the nested source/highlight loop -/

theorem processSource_eq_foldl_map
    (c : String → List (String × Option Value) → String → Option Document)
    (st : List Document × List Int) (s : Source) :
    processSource c st s =
      (s.highlights.map (fun h => (commonMetadata s, h))).foldl (step2 c) st := by
  unfold processSource
  rw [List.foldl_map]
  rfl

theorem foldl_flatPairs
    (c : String → List (String × Option Value) → String → Option Document) :
    ∀ (raw : List Source) (st : List Document × List Int),
      raw.foldl (processSource c) st = (flatPairs raw).foldl (step2 c) st
  | [], _ => rfl
  | s :: raw, st => by
    show raw.foldl (processSource c) (processSource c st s) = _
    rw [foldl_flatPairs c raw, processSource_eq_foldl_map]
    unfold flatPairs
    rw [List.flatMap_cons, List.foldl_append]

theorem process_eq_foldl_flatPairs
    (c : String → List (String × Option Value) → String → Option Document)
    (raw : List Source) :
    process_highlights_to_documents c raw =
      ((flatPairs raw).foldl (step2 c) ([], [])).1 := by
  unfold process_highlights_to_documents
  rw [foldl_flatPairs]

theorem key_safe_of_mem_flatPairs {raw : List Source}
    {p : List (String × Option Value) × Highlight} (hp : p ∈ flatPairs raw) :
    "highlight_id" ∉ p.1.map Prod.fst := by
  unfold flatPairs at hp
  rcases List.mem_flatMap.mp hp with ⟨s, _, hp2⟩
  rcases List.mem_map.mp hp2 with ⟨h, _, rfl⟩
  exact highlight_id_not_key s

theorem map_snd_flatPairs :
    ∀ raw : List Source, (flatPairs raw).map Prod.snd = traversal raw
  | [] => rfl
  | s :: raw => by
    have ih := map_snd_flatPairs raw
    simp only [flatPairs, traversal, List.flatMap_cons, List.map_append,
      List.map_map] at ih ⊢
    rw [ih]
    simp

/-! ## Per-step invariants of the dedup loop -/

/-- Processing a blank-text highlight with a fresh, truthy id only
marks the id as seen. -/
theorem step_blank
    (c : String → List (String × Option Value) → String → Option Document)
    (hid : Int) (p : List (String × Option Value) × Highlight)
    (st : List Document × List Int)
    (hi : p.2.id = some hid) (h0 : hid ≠ 0) (hseen : hid ∉ st.2)
    (hb : isBlank p.2.text = true) :
    step2 c st p = (st.1, hid :: st.2) := by
  unfold step2 processHighlight
  rw [hi]
  dsimp only
  rw [if_neg h0, if_neg hseen, if_pos hb]

/-- One step preserves: at most one document for `hid`, and none at all
while `hid` is unseen. -/
theorem stepP (hid : Int) (p : List (String × Option Value) × Highlight)
    (hsafe : "highlight_id" ∉ p.1.map Prod.fst)
    (st : List Document × List Int)
    (h1 : st.1.countP (hidMatches hid) ≤ 1)
    (h2 : hid ∉ st.2 → st.1.countP (hidMatches hid) = 0) :
    (step2 mkDocument st p).1.countP (hidMatches hid) ≤ 1 ∧
      (hid ∉ (step2 mkDocument st p).2 →
        (step2 mkDocument st p).1.countP (hidMatches hid) = 0) := by
  unfold step2 processHighlight
  cases hi : p.2.id with
  | none => exact ⟨h1, h2⟩
  | some hid' =>
    dsimp only
    by_cases h0 : hid' = 0
    · rw [if_pos h0]; exact ⟨h1, h2⟩
    rw [if_neg h0]
    by_cases hseen : hid' ∈ st.2
    · rw [if_pos hseen]; exact ⟨h1, h2⟩
    rw [if_neg hseen]
    by_cases hblank : isBlank p.2.text
    · rw [if_pos hblank]
      exact ⟨h1, fun hn => h2 (fun hx => hn (List.mem_cons_of_mem _ hx))⟩
    rw [if_neg hblank]
    simp only [mkDocument]
    simp only [List.countP_append, List.countP_cons, List.countP_nil,
      hidMatches_mk p.1 p.2 hid' hid hsafe]
    by_cases heq : hid' = hid
    · subst heq
      rw [h2 hseen]
      refine ⟨by simp, fun hn => absurd (List.mem_cons_self _ _) hn⟩
    · simp only [decide_eq_false heq, cond_false, Nat.add_zero]
      refine ⟨h1, fun hn => h2 (fun hx => hn (List.mem_cons_of_mem _ hx))⟩

/-- One step preserves: `hid` already seen and no document for it —
once an id is consumed without a document, none ever appears. -/
theorem stepR (hid : Int) (p : List (String × Option Value) × Highlight)
    (hsafe : "highlight_id" ∉ p.1.map Prod.fst)
    (st : List Document × List Int)
    (h1 : hid ∈ st.2) (h2 : st.1.countP (hidMatches hid) = 0) :
    hid ∈ (step2 mkDocument st p).2 ∧
      (step2 mkDocument st p).1.countP (hidMatches hid) = 0 := by
  unfold step2 processHighlight
  cases hi : p.2.id with
  | none => exact ⟨h1, h2⟩
  | some hid' =>
    dsimp only
    by_cases h0 : hid' = 0
    · rw [if_pos h0]; exact ⟨h1, h2⟩
    rw [if_neg h0]
    by_cases hseen : hid' ∈ st.2
    · rw [if_pos hseen]; exact ⟨h1, h2⟩
    rw [if_neg hseen]
    by_cases hblank : isBlank p.2.text
    · rw [if_pos hblank]
      exact ⟨List.mem_cons_of_mem _ h1, h2⟩
    rw [if_neg hblank]
    simp only [mkDocument]
    have hne : hid' ≠ hid := fun hx => hseen (hx ▸ h1)
    simp only [List.countP_append, List.countP_cons, List.countP_nil,
      hidMatches_mk p.1 p.2 hid' hid hsafe, decide_eq_false hne, cond_false]
    exact ⟨List.mem_cons_of_mem _ h1, by simpa using h2⟩

/-- One step on a highlight whose id is not `hid` preserves: `hid`
unseen and no document for it. -/
theorem stepS (hid : Int) (p : List (String × Option Value) × Highlight)
    (hsafe : "highlight_id" ∉ p.1.map Prod.fst)
    (st : List Document × List Int)
    (hne : p.2.id ≠ some hid)
    (h1 : hid ∉ st.2) (h2 : st.1.countP (hidMatches hid) = 0) :
    hid ∉ (step2 mkDocument st p).2 ∧
      (step2 mkDocument st p).1.countP (hidMatches hid) = 0 := by
  unfold step2 processHighlight
  cases hi : p.2.id with
  | none => exact ⟨h1, h2⟩
  | some hid' =>
    dsimp only
    have hne' : hid' ≠ hid := fun hx => hne (hi ▸ hx ▸ rfl)
    by_cases h0 : hid' = 0
    · rw [if_pos h0]; exact ⟨h1, h2⟩
    rw [if_neg h0]
    by_cases hseen : hid' ∈ st.2
    · rw [if_pos hseen]; exact ⟨h1, h2⟩
    rw [if_neg hseen]
    by_cases hblank : isBlank p.2.text
    · rw [if_pos hblank]
      refine ⟨fun hx => ?_, h2⟩
      rcases List.mem_cons.mp hx with hx | hx
      · exact hne' hx.symm
      · exact h1 hx
    rw [if_neg hblank]
    simp only [mkDocument]
    refine ⟨fun hx => ?_, ?_⟩
    · rcases List.mem_cons.mp hx with hx | hx
      · exact hne' hx.symm
      · exact h1 hx
    · simp only [List.countP_append, List.countP_cons, List.countP_nil,
        hidMatches_mk p.1 p.2 hid' hid hsafe, decide_eq_false hne', cond_false]
      simpa using h2

theorem foldlP (hid : Int) :
    ∀ ps : List (List (String × Option Value) × Highlight),
      (∀ p ∈ ps, "highlight_id" ∉ p.1.map Prod.fst) →
      ∀ st : List Document × List Int,
        st.1.countP (hidMatches hid) ≤ 1 →
        (hid ∉ st.2 → st.1.countP (hidMatches hid) = 0) →
        (ps.foldl (step2 mkDocument) st).1.countP (hidMatches hid) ≤ 1 ∧
          (hid ∉ (ps.foldl (step2 mkDocument) st).2 →
            (ps.foldl (step2 mkDocument) st).1.countP (hidMatches hid) = 0)
  | [], _, st, h1, h2 => ⟨h1, h2⟩
  | p :: ps, hsafe, st, h1, h2 => by
    have hp := stepP hid p (hsafe p (List.mem_cons_self p ps)) st h1 h2
    exact foldlP hid ps (fun q hq => hsafe q (List.mem_cons_of_mem p hq))
      (step2 mkDocument st p) hp.1 hp.2

theorem foldlR (hid : Int) :
    ∀ ps : List (List (String × Option Value) × Highlight),
      (∀ p ∈ ps, "highlight_id" ∉ p.1.map Prod.fst) →
      ∀ st : List Document × List Int,
        hid ∈ st.2 → st.1.countP (hidMatches hid) = 0 →
        hid ∈ (ps.foldl (step2 mkDocument) st).2 ∧
          (ps.foldl (step2 mkDocument) st).1.countP (hidMatches hid) = 0
  | [], _, st, h1, h2 => ⟨h1, h2⟩
  | p :: ps, hsafe, st, h1, h2 => by
    have hp := stepR hid p (hsafe p (List.mem_cons_self p ps)) st h1 h2
    exact foldlR hid ps (fun q hq => hsafe q (List.mem_cons_of_mem p hq))
      (step2 mkDocument st p) hp.1 hp.2

theorem foldlS (hid : Int) :
    ∀ ps : List (List (String × Option Value) × Highlight),
      (∀ p ∈ ps, "highlight_id" ∉ p.1.map Prod.fst) →
      (∀ p ∈ ps, p.2.id ≠ some hid) →
      ∀ st : List Document × List Int,
        hid ∉ st.2 → st.1.countP (hidMatches hid) = 0 →
        hid ∉ (ps.foldl (step2 mkDocument) st).2 ∧
          (ps.foldl (step2 mkDocument) st).1.countP (hidMatches hid) = 0
  | [], _, _, st, h1, h2 => ⟨h1, h2⟩
  | p :: ps, hsafe, hne, st, h1, h2 => by
    have hp := stepS hid p (hsafe p (List.mem_cons_self p ps)) st
      (hne p (List.mem_cons_self p ps)) h1 h2
    exact foldlS hid ps (fun q hq => hsafe q (List.mem_cons_of_mem p hq))
      (fun q hq => hne q (List.mem_cons_of_mem p hq))
      (step2 mkDocument st p) hp.1 hp.2

theorem find?_map_snd_decomp {α β : Type} (q : β → Bool) :
    ∀ (ps : List (α × β)) (b : β), (ps.map Prod.snd).find? q = some b →
      ∃ l1 p l2, ps = l1 ++ p :: l2 ∧ p.2 = b ∧ ∀ x ∈ l1, q x.2 = false
  | [], b, h => by simp [List.find?] at h
  | p :: ps, b, h => by
    simp only [List.map_cons, List.find?] at h
    cases hq : q p.2 with
    | true =>
      rw [hq] at h
      refine ⟨[], p, ps, rfl, Option.some.inj h, by simp⟩
    | false =>
      rw [hq] at h
      rcases find?_map_snd_decomp q ps b h with ⟨l1, p', l2, hps, hb, hl1⟩
      refine ⟨p :: l1, p', l2, by rw [hps]; rfl, hb, ?_⟩
      intro x hx
      rcases List.mem_cons.mp hx with hx | hx
      · exact hx ▸ hq
      · exact hl1 x hx

/-! ## C1 -/

/-- C1: for every input, the normalizer emits at most one canonical
record per distinct highlight id, and admission is decided by the first
occurrence of that id in traversal order: if the first raw highlight
carrying the id has empty or all-whitespace text, no record with that
id is ever emitted — not even for a later duplicate with non-empty
text. -/
theorem C1_at_most_one_first_occurrence_decides
    (raw : List Source) (hid : Int) (hid0 : hid ≠ 0) :
    (process_highlights_to_documents mkDocument raw).countP (hidMatches hid) ≤ 1 ∧
    (∀ h0 : Highlight,
      (traversal raw).find? (fun h => h.id == some hid) = some h0 →
      isBlank h0.text = true →
      (process_highlights_to_documents mkDocument raw).countP (hidMatches hid) = 0) := by
  constructor
  · rw [process_eq_foldl_flatPairs]
    exact (foldlP hid (flatPairs raw) (fun p hp => key_safe_of_mem_flatPairs hp)
      ([], []) (by simp) (fun _ => by simp)).1
  · intro h0 hfind hblank
    rw [← map_snd_flatPairs raw] at hfind
    have hq0 : h0.id = some hid := by
      have hp := List.find?_some hfind
      exact eq_of_beq hp
    rcases find?_map_snd_decomp _ (flatPairs raw) h0 hfind with
      ⟨l1, p, l2, hfl, hp2, hl1⟩
    have hpid : p.2.id = some hid := by rw [hp2, hq0]
    have hpblank : isBlank p.2.text = true := by rw [hp2]; exact hblank
    rw [process_eq_foldl_flatPairs, hfl, List.foldl_append, List.foldl_cons]
    set st1 := l1.foldl (step2 mkDocument) (([], []) : List Document × List Int)
      with hst1
    have hs1 := foldlS hid l1
      (fun q hq => key_safe_of_mem_flatPairs (by rw [hfl]; exact List.mem_append_left _ hq))
      (fun q hq => by
        have hf := hl1 q hq
        intro hx
        rw [hx] at hf
        simp at hf)
      ([], []) (by simp) (by simp)
    rw [step_blank mkDocument hid p st1 hpid hid0 hs1.1 hpblank]
    exact (foldlR hid l2
      (fun q hq => key_safe_of_mem_flatPairs
        (by rw [hfl]; exact List.mem_append_right _ (List.mem_cons_of_mem _ hq)))
      (st1.1, hid :: st1.2) (List.mem_cons_self _ _) hs1.2).2

/-- Witness for C1 at a concrete input: a blank-text highlight with
id 1 followed by a real-text duplicate yields no record for id 1. -/
theorem C1_witness :
    (process_highlights_to_documents mkDocument [srcBlankFirst]).countP
      (hidMatches 1) = 0 :=
  (C1_at_most_one_first_occurrence_decides [srcBlankFirst] 1 (by decide)).2
    hlBlankFirst (by decide) (by decide)

/-! ## Counting the produced documents (C5) -/

theorem step_none
    (c : String → List (String × Option Value) → String → Option Document)
    (st : List Document × List Int)
    (p : List (String × Option Value) × Highlight)
    (hi : p.2.id = none) : step2 c st p = st := by
  unfold step2 processHighlight
  rw [hi]

theorem step_zero
    (c : String → List (String × Option Value) → String → Option Document)
    (st : List Document × List Int)
    (p : List (String × Option Value) × Highlight) (hid : Int)
    (hi : p.2.id = some hid) (h0 : hid = 0) : step2 c st p = st := by
  unfold step2 processHighlight
  rw [hi]
  dsimp only
  rw [if_pos h0]

theorem step_seen
    (c : String → List (String × Option Value) → String → Option Document)
    (st : List Document × List Int)
    (p : List (String × Option Value) × Highlight) (hid : Int)
    (hi : p.2.id = some hid) (h0 : hid ≠ 0) (hseen : hid ∈ st.2) :
    step2 c st p = st := by
  unfold step2 processHighlight
  rw [hi]
  dsimp only
  rw [if_neg h0, if_pos hseen]

theorem step_emit_mk
    (st : List Document × List Int)
    (p : List (String × Option Value) × Highlight) (hid : Int)
    (hi : p.2.id = some hid) (h0 : hid ≠ 0) (hseen : hid ∉ st.2)
    (hb : ¬ isBlank p.2.text = true) :
    step2 mkDocument st p =
      (st.1 ++ [⟨documentText p.2, highlightMetadata p.1 p.2 hid,
        "readwise_highlight_" ++ toString hid⟩], hid :: st.2) := by
  unfold step2 processHighlight
  rw [hi]
  dsimp only
  rw [if_neg h0, if_neg hseen, if_neg hb]
  rfl

theorem opCount_cons_none (h : Highlight) (t : List Highlight)
    (seen : List Int) (hi : h.id = none) :
    opCount (h :: t) seen = opCount t seen := by
  conv_lhs => unfold opCount
  rw [hi]

theorem opCount_cons_zero (h : Highlight) (t : List Highlight)
    (seen : List Int) (hid : Int) (hi : h.id = some hid) (h0 : hid = 0) :
    opCount (h :: t) seen = opCount t seen := by
  conv_lhs => unfold opCount
  rw [hi]
  dsimp only
  rw [if_pos h0]

theorem opCount_cons_seen (h : Highlight) (t : List Highlight)
    (seen : List Int) (hid : Int) (hi : h.id = some hid) (h0 : hid ≠ 0)
    (hseen : hid ∈ seen) :
    opCount (h :: t) seen = opCount t seen := by
  conv_lhs => unfold opCount
  rw [hi]
  dsimp only
  rw [if_neg h0, if_pos hseen]

theorem opCount_cons_blank (h : Highlight) (t : List Highlight)
    (seen : List Int) (hid : Int) (hi : h.id = some hid) (h0 : hid ≠ 0)
    (hseen : hid ∉ seen) (hb : isBlank h.text = true) :
    opCount (h :: t) seen = opCount t (hid :: seen) := by
  conv_lhs => unfold opCount
  rw [hi]
  dsimp only
  rw [if_neg h0, if_neg hseen, if_pos hb]

theorem opCount_cons_emit (h : Highlight) (t : List Highlight)
    (seen : List Int) (hid : Int) (hi : h.id = some hid) (h0 : hid ≠ 0)
    (hseen : hid ∉ seen) (hb : ¬ isBlank h.text = true) :
    opCount (h :: t) seen = 1 + opCount t (hid :: seen) := by
  conv_lhs => unfold opCount
  rw [hi]
  dsimp only
  rw [if_neg h0, if_neg hseen, if_neg hb]

/-- The dedup fold produces exactly `opCount` many new documents. -/
theorem length_foldl_step2 :
    ∀ (ps : List (List (String × Option Value) × Highlight))
      (st : List Document × List Int),
      (ps.foldl (step2 mkDocument) st).1.length =
        st.1.length + opCount (ps.map Prod.snd) st.2
  | [], st => by simp [opCount]
  | p :: ps, st => by
    rw [List.foldl_cons, List.map_cons]
    cases hi : p.2.id with
    | none =>
      rw [step_none mkDocument st p hi, length_foldl_step2 ps st,
        opCount_cons_none p.2 _ _ hi]
    | some hid =>
      by_cases h0 : hid = 0
      · rw [step_zero mkDocument st p hid hi h0, length_foldl_step2 ps st,
          opCount_cons_zero p.2 _ _ hid hi h0]
      by_cases hseen : hid ∈ st.2
      · rw [step_seen mkDocument st p hid hi h0 hseen, length_foldl_step2 ps st,
          opCount_cons_seen p.2 _ _ hid hi h0 hseen]
      by_cases hb : isBlank p.2.text = true
      · rw [step_blank mkDocument hid p st hi h0 hseen hb,
          length_foldl_step2 ps (st.1, hid :: st.2),
          opCount_cons_blank p.2 _ _ hid hi h0 hseen hb]
      · rw [step_emit_mk st p hid hi h0 hseen hb,
          length_foldl_step2 ps _, opCount_cons_emit p.2 _ _ hid hi h0 hseen hb]
        simp only [List.length_append, List.length_cons, List.length_nil]
        omega

theorem ne_zero_of_mem_truthyIds {x : Int} {l : List Highlight}
    (hx : x ∈ truthyIds l) : x ≠ 0 := by
  unfold truthyIds at hx
  have := List.of_mem_filter hx
  simpa using this

theorem truthyIds_cons_none (h : Highlight) (t : List Highlight)
    (hi : h.id = none) : truthyIds (h :: t) = truthyIds t := by
  unfold truthyIds
  rw [List.filterMap_cons_none hi]

theorem truthyIds_cons_zero (h : Highlight) (t : List Highlight)
    (hi : h.id = some 0) : truthyIds (h :: t) = truthyIds t := by
  unfold truthyIds
  rw [List.filterMap_cons_some hi, List.filter_cons_of_neg (by simp)]

theorem truthyIds_cons_truthy (h : Highlight) (t : List Highlight)
    (hid : Int) (hi : h.id = some hid) (h0 : hid ≠ 0) :
    truthyIds (h :: t) = hid :: truthyIds t := by
  unfold truthyIds
  rw [List.filterMap_cons_some hi, List.filter_cons_of_pos (by simp [h0])]

theorem admittedId_cons_of_ne (h : Highlight) (t : List Highlight)
    (hid : Int) (hne : h.id ≠ some hid) :
    admittedId (h :: t) hid = admittedId t hid := by
  unfold admittedId firstWithId
  rw [List.find?_cons_of_neg]
  simp [hne]

theorem admittedId_cons_self (h : Highlight) (t : List Highlight)
    (hid : Int) (hi : h.id = some hid) :
    admittedId (h :: t) hid = !(isBlank h.text) := by
  unfold admittedId firstWithId
  rw [List.find?_cons_of_pos]
  simp [hi]

/-- `opCount` counts the distinct unseen truthy ids whose first
occurrence has non-blank text. -/
theorem opCount_eq_card :
    ∀ (l : List Highlight) (seen : List Int),
      opCount l seen =
        (((truthyIds l).toFinset \ seen.toFinset).filter
          (fun hid => admittedId l hid = true)).card
  | [], seen => by simp [opCount, truthyIds]
  | h :: t, seen => by
    cases hi : h.id with
    | none =>
      rw [opCount_cons_none h t seen hi, truthyIds_cons_none h t hi,
        opCount_eq_card t seen]
      apply congrArg Finset.card
      apply Finset.filter_congr
      intro x _
      rw [admittedId_cons_of_ne h t x (by rw [hi]; exact fun hc => Option.noConfusion hc)]
    | some hid =>
      by_cases h0 : hid = 0
      · subst h0
        rw [opCount_cons_zero h t seen 0 hi rfl, truthyIds_cons_zero h t hi,
          opCount_eq_card t seen]
        apply congrArg Finset.card
        apply Finset.filter_congr
        intro x hx
        have hx0 : x ≠ 0 :=
          ne_zero_of_mem_truthyIds
            (List.mem_toFinset.mp (Finset.mem_sdiff.mp hx).1)
        rw [admittedId_cons_of_ne h t x
          (by rw [hi]; exact fun hc => hx0 (Option.some.inj hc).symm)]
      by_cases hseen : hid ∈ seen
      · rw [opCount_cons_seen h t seen hid hi h0 hseen,
          truthyIds_cons_truthy h t hid hi h0, opCount_eq_card t seen,
          List.toFinset_cons,
          Finset.insert_sdiff_of_mem _ (List.mem_toFinset.mpr hseen)]
        apply congrArg Finset.card
        apply Finset.filter_congr
        intro x hx
        have hxs : x ∉ seen := fun hc =>
          (Finset.mem_sdiff.mp hx).2 (List.mem_toFinset.mpr hc)
        have hxne : x ≠ hid := fun hc => hxs (hc ▸ hseen)
        rw [admittedId_cons_of_ne h t x
          (by rw [hi]; exact fun hc => hxne (Option.some.inj hc).symm)]
      by_cases hb : isBlank h.text = true
      · rw [opCount_cons_blank h t seen hid hi h0 hseen hb,
          truthyIds_cons_truthy h t hid hi h0, opCount_eq_card t (hid :: seen)]
        simp only [List.toFinset_cons]
        apply congrArg Finset.card
        ext x
        simp only [Finset.mem_filter, Finset.mem_sdiff, Finset.mem_insert,
          List.mem_toFinset]
        by_cases hx : x = hid
        · subst hx
          rw [admittedId_cons_self h t x hi, hb]
          simp
        · rw [admittedId_cons_of_ne h t x
            (by rw [hi]; exact fun hc => hx (Option.some.inj hc).symm)]
          constructor
          · rintro ⟨⟨hx1, hx2⟩, hx3⟩
            simp only [not_or] at hx2
            exact ⟨⟨Or.inr hx1, hx2.2⟩, hx3⟩
          · rintro ⟨⟨hx1 | hx1, hx2⟩, hx3⟩
            · exact absurd hx1 hx
            · exact ⟨⟨hx1, by simp [hx, hx2]⟩, hx3⟩
      · rw [opCount_cons_emit h t seen hid hi h0 hseen hb,
          truthyIds_cons_truthy h t hid hi h0, opCount_eq_card t (hid :: seen)]
        simp only [List.toFinset_cons]
        have hsets :
            ((insert hid (truthyIds t).toFinset \ seen.toFinset).filter
              (fun x => admittedId (h :: t) x = true)) =
            insert hid
              (((truthyIds t).toFinset \ insert hid seen.toFinset).filter
                (fun x => admittedId t x = true)) := by
          ext x
          simp only [Finset.mem_filter, Finset.mem_sdiff, Finset.mem_insert,
            List.mem_toFinset]
          by_cases hx : x = hid
          · subst hx
            rw [admittedId_cons_self h t x hi]
            have hbb : isBlank h.text = false := by
              cases hc : isBlank h.text with
              | false => rfl
              | true => exact absurd hc hb
            rw [hbb]
            simp [hseen]
          · rw [admittedId_cons_of_ne h t x
              (by rw [hi]; exact fun hc => hx (Option.some.inj hc).symm)]
            constructor
            · rintro ⟨⟨hx1 | hx1, hx2⟩, hx3⟩
              · exact absurd hx1 hx
              · exact Or.inr ⟨⟨hx1, by simp [hx, hx2]⟩, hx3⟩
            · rintro (hx1 | ⟨⟨hx1, hx2⟩, hx3⟩)
              · exact absurd hx1 hx
              · simp only [not_or] at hx2
                exact ⟨⟨Or.inr hx1, hx2.2⟩, hx3⟩
        rw [hsets, Finset.card_insert_of_not_mem]
        · omega
        · intro hc
          have := (Finset.mem_sdiff.mp (Finset.mem_filter.mp hc).1).2
          exact this (by simp)

/-! ## C5 -/

/-- C5 counterexample: with a blank-text first occurrence of id 1
followed by a real-text duplicate, the normalizer produces zero
records, yet there is one distinct non-empty-id, non-empty-text
highlight — so the claimed count identity fails. -/
theorem C5_counterexample :
    (process_highlights_to_documents mkDocument [srcBlankFirst]).length = 0 ∧
    naiveDistinctCount [srcBlankFirst] = 1 ∧
    (process_highlights_to_documents mkDocument [srcBlankFirst]).length ≠
      naiveDistinctCount [srcBlankFirst] :=
  ⟨by decide, by decide, by decide⟩

/-- C5 (amended): for every input, the number of canonical records
produced equals the number of distinct non-zero highlight ids whose
FIRST occurrence in traversal order has non-blank text (an id whose
first occurrence is blank counts for nothing, per the
first-occurrence-wins policy; ids shared across sources count once). -/
theorem C5_amended_distinct_count (raw : List Source) :
    (process_highlights_to_documents mkDocument raw).length =
      ((truthyIds (traversal raw)).toFinset.filter
        (fun hid => admittedId (traversal raw) hid = true)).card := by
  rw [process_eq_foldl_flatPairs, length_foldl_step2 (flatPairs raw) ([], []),
    map_snd_flatPairs, opCount_eq_card]
  simp

/-! ## Shape of documents added by one step (C6, C7) -/

/-- Any document present after one step was either already present or
is the document freshly built for this highlight (which then has a
truthy id and non-blank text). -/
theorem mem_fst_step2_mk {st : List Document × List Int}
    {p : List (String × Option Value) × Highlight} {d : Document}
    (hd : d ∈ (step2 mkDocument st p).1) :
    d ∈ st.1 ∨ ∃ hid, p.2.id = some hid ∧ isBlank p.2.text = false ∧
      d = ⟨documentText p.2, highlightMetadata p.1 p.2 hid,
        "readwise_highlight_" ++ toString hid⟩ := by
  unfold step2 processHighlight at hd
  cases hi : p.2.id with
  | none =>
    rw [hi] at hd
    exact Or.inl hd
  | some hid =>
    rw [hi] at hd
    dsimp only at hd
    by_cases h0 : hid = 0
    · rw [if_pos h0] at hd; exact Or.inl hd
    rw [if_neg h0] at hd
    by_cases hseen : hid ∈ st.2
    · rw [if_pos hseen] at hd; exact Or.inl hd
    rw [if_neg hseen] at hd
    by_cases hb : isBlank p.2.text = true
    · rw [if_pos hb] at hd; exact Or.inl hd
    rw [if_neg hb] at hd
    simp only [mkDocument] at hd
    rcases List.mem_append.mp hd with hd | hd
    · exact Or.inl hd
    · right
      refine ⟨hid, rfl, ?_, ?_⟩
      · cases hbb : isBlank p.2.text with
        | false => rfl
        | true => exact absurd hbb hb
      · simpa using hd

/-- Every entry of the metadata of a freshly built document survives
the null-stripping filter, hence is non-null. -/
theorem highlightMetadata_isSome (common : List (String × Option Value))
    (h : Highlight) (hid : Int) :
    ∀ kv ∈ highlightMetadata common h hid, kv.2.isSome = true := by
  intro kv hkv
  unfold highlightMetadata at hkv
  exact (List.mem_filter.mp hkv).2

theorem foldl_meta_some :
    ∀ (ps : List (List (String × Option Value) × Highlight))
      (st : List Document × List Int),
      (∀ d ∈ st.1, ∀ kv ∈ d.metadata, kv.2.isSome = true) →
      ∀ d ∈ (ps.foldl (step2 mkDocument) st).1,
        ∀ kv ∈ d.metadata, kv.2.isSome = true
  | [], _, hst => hst
  | p :: ps, st, hst => by
    refine foldl_meta_some ps (step2 mkDocument st p) ?_
    intro d hd
    rcases mem_fst_step2_mk hd with hd | ⟨hid, _, _, rfl⟩
    · exact hst d hd
    · exact highlightMetadata_isSome p.1 p.2 hid

theorem snd_mem_traversal {raw : List Source}
    {p : List (String × Option Value) × Highlight}
    (hp : p ∈ flatPairs raw) : p.2 ∈ traversal raw := by
  rw [← map_snd_flatPairs]
  exact List.mem_map_of_mem _ hp

theorem foldl_body_shape (A : Highlight → Prop) :
    ∀ (ps : List (List (String × Option Value) × Highlight))
      (st : List Document × List Int),
      (∀ p ∈ ps, A p.2) →
      (∀ d ∈ st.1, ∃ h, A h ∧ isBlank h.text = false ∧
        d.text = documentText h) →
      ∀ d ∈ (ps.foldl (step2 mkDocument) st).1,
        ∃ h, A h ∧ isBlank h.text = false ∧ d.text = documentText h
  | [], _, _, hst => hst
  | p :: ps, st, hA, hst => by
    refine foldl_body_shape A ps (step2 mkDocument st p)
      (fun q hq => hA q (List.mem_cons_of_mem p hq)) ?_
    intro d hd
    rcases mem_fst_step2_mk hd with hd | ⟨hid, _, hnb, rfl⟩
    · exact hst d hd
    · exact ⟨p.2, hA p (List.mem_cons_self p ps), hnb, rfl⟩

/-! ## C6 -/

/-- C6: for every record the normalizer emits, its attributes mapping
contains no null-valued entry — every key present maps to a non-null
value, null fields having been stripped before the record is
constructed. -/
theorem C6_no_null_attribute_values (raw : List Source) (d : Document)
    (hd : d ∈ process_highlights_to_documents mkDocument raw) :
    ∀ kv ∈ d.metadata, kv.2.isSome = true := by
  rw [process_eq_foldl_flatPairs] at hd
  exact foldl_meta_some (flatPairs raw) ([], []) (by simp) d hd

/-- Witness for C6 at the §8 scenario record and its `title` entry. -/
theorem C6_witness :
    (("title", some (Value.str "Book A")) : String × Option Value).2.isSome
      = true :=
  C6_no_null_attribute_values [srcBookA] docHi (by decide)
    ("title", some (Value.str "Book A")) (by decide)

/-! ## C7 -/

/-- C7: every emitted record's body is the highlight text exactly when
the note is empty, and the text followed by `"\n\nNote: "` and the note
when the note is non-empty; and the §8 scenario (two highlights sharing
id 1) yields exactly one record, with highlight id 1 and body `"hi"`. -/
theorem C7_body_shape_and_scenario :
    (∀ (raw : List Source) (d : Document),
      d ∈ process_highlights_to_documents mkDocument raw →
      ∃ h, h ∈ traversal raw ∧ isBlank h.text = false ∧
        d.text = (if h.note = "" then h.text
          else h.text ++ "\n\nNote: " ++ h.note)) ∧
    (process_highlights_to_documents mkDocument [srcBookA]).map
      Document.text = ["hi"] ∧
    (process_highlights_to_documents mkDocument [srcBookA]).map docHid =
      [some (some (Value.int 1))] := by
  refine ⟨fun raw d hd => ?_, by decide, by decide⟩
  rw [process_eq_foldl_flatPairs] at hd
  rcases foldl_body_shape (· ∈ traversal raw) (flatPairs raw) ([], [])
    (fun p hp => snd_mem_traversal hp) (by simp) d hd with ⟨h, hmem, hnb, htext⟩
  exact ⟨h, hmem, hnb, htext⟩

/-- Witness for C7's general part at the §8 scenario record. -/
theorem C7_witness :
    ∃ h, h ∈ traversal [srcBookA] ∧ isBlank h.text = false ∧
      docHi.text = (if h.note = "" then h.text
        else h.text ++ "\n\nNote: " ++ h.note) :=
  C7_body_shape_and_scenario.1 [srcBookA] docHi (by decide)

/-! ## C9 -/

/-- C9: when constructing the record for a highlight fails, the seen-id
set is left unchanged — the id is not marked seen — so a later raw
highlight with the same id is processed independently and may still
produce a record (shown concretely: id 5 fails on its first highlight
and the duplicate is emitted). -/
theorem C9_construction_failure_keeps_id_unseen :
    (∀ (construct : String → List (String × Option Value) → String →
        Option Document)
      (common : List (String × Option Value))
      (st : List Document × List Int) (h : Highlight) (hid : Int),
      h.id = some hid → hid ≠ 0 → hid ∉ st.2 → ¬ isBlank h.text = true →
      construct (documentText h) (highlightMetadata common h hid)
        ("readwise_highlight_" ++ toString hid) = none →
      processHighlight construct common st h = st) ∧
    (process_highlights_to_documents failOnA [srcRetrySameId]).map
      Document.text = ["b"] := by
  refine ⟨fun construct common st h hid hi h0 hseen hb hcons => ?_, by decide⟩
  unfold processHighlight
  rw [hi]
  dsimp only
  rw [if_neg h0, if_neg hseen, if_neg hb, hcons]

/-- Witness for C9's general part: the failing first highlight of the
C9 scenario leaves the empty state untouched. -/
theorem C9_witness :
    processHighlight failOnA [] ([], []) hlFailA = ([], []) :=
  C9_construction_failure_keeps_id_unseen.1 failOnA [] ([], []) hlFailA 5
    (by decide) (by decide) (by decide) (by decide) (by decide)

/-! ## C8 -/

/-- C8: a 429 response makes the fetcher wait for the server-supplied
`Retry-After` delay (60 when unspecified) and retry the same page with
the accumulated data intact, while any other request failure stops
pagination and returns whatever was accumulated so far; shown also on a
concrete three-response run. -/
theorem C8_rate_limit_retry_other_failure_partial :
    (∀ (ra : Option Nat) (rest : List FetchResponse)
      (st : List Source × Option String),
      fetch_all_highlights (FetchResponse.rateLimited ra :: rest) st =
        ((fetch_all_highlights rest st).1,
          ra.getD 60 :: (fetch_all_highlights rest st).2)) ∧
    (∀ (rest : List FetchResponse) (st : List Source × Option String),
      fetch_all_highlights (FetchResponse.failure :: rest) st =
        (st.1, [])) ∧
    fetch_all_highlights
      [FetchResponse.ok [srcBookA] (some "cursor2"),
       FetchResponse.rateLimited none,
       FetchResponse.ok [srcBlankFirst] none] ([], none) =
      ([srcBookA, srcBlankFirst], [60]) := by
  refine ⟨fun ra rest st => rfl, fun rest st => rfl, by decide⟩

/-! ## Pipeline lifecycle lemmas -/

/-- A call with the engine already cached is a no-op returning it. -/
theorem setup_pipeline_cached (b : Builders) (k : Nat) (st : PipeState)
    (e : Engine) (hc : st.cached = some e) :
    setup_pipeline b k st = (.ok e, st) := by
  unfold setup_pipeline
  rw [hc]

/-- Characterization of a successful construction from an uncached
state: the engine is built with the requested breadth, gets cached, and
each construction step ran exactly once more. -/
theorem setup_pipeline_ok_char (b : Builders) (k : Nat) (st : PipeState)
    (e : Engine) (st' : PipeState) (hc : st.cached = none)
    (hok : setup_pipeline b k st = (.ok e, st')) :
    e.top_k = k ∧ st'.cached = some e ∧ st'.tries = st.tries + 1 ∧
      st'.embedCalls = st.embedCalls + 1 ∧
      st'.llmCalls = st.llmCalls + 1 ∧
      st'.storeCalls = st.storeCalls + 1 ∧
      st'.indexCalls = st.indexCalls + 1 ∧
      st'.engineCalls = st.engineCalls + 1 := by
  unfold setup_pipeline at hok
  rw [hc] at hok
  try dsimp only at hok
  cases hembed : b.embed st.tries with
  | none => rw [hembed] at hok; exact absurd (congrArg Prod.fst hok) (by simp)
  | some ev =>
    rw [hembed] at hok
    try dsimp only at hok
    cases hllm : b.llm st.tries with
    | none => rw [hllm] at hok; exact absurd (congrArg Prod.fst hok) (by simp)
    | some lv =>
      rw [hllm] at hok
      try dsimp only at hok
      cases hstore : b.store st.tries with
      | none => rw [hstore] at hok; exact absurd (congrArg Prod.fst hok) (by simp)
      | some sv =>
        rw [hstore] at hok
        try dsimp only at hok
        cases hidx : b.indexFails st.tries with
        | true => rw [if_pos hidx] at hok; exact absurd (congrArg Prod.fst hok) (by simp)
        | false =>
          rw [if_neg (by rw [hidx]; exact fun hx => Bool.noConfusion hx)] at hok
          try dsimp only at hok
          cases heng : b.engineFails st.tries with
          | true => rw [if_pos heng] at hok; exact absurd (congrArg Prod.fst hok) (by simp)
          | false =>
            rw [if_neg (by rw [heng]; exact fun hx => Bool.noConfusion hx)] at hok
            have h1 := congrArg Prod.fst hok
            have h2 := congrArg Prod.snd hok
            simp only at h1 h2
            have he : Engine.mk sv k = e := Except.ok.inj h1
            subst he
            subst h2
            simp

/-- Characterization of a failed construction: the cache was empty, is
still empty, and one more construction attempt was consumed. -/
theorem setup_pipeline_err_char (b : Builders) (k : Nat) (st : PipeState)
    (u : Unit) (st' : PipeState)
    (herr : setup_pipeline b k st = (.error u, st')) :
    st.cached = none ∧ st'.cached = none ∧ st'.tries = st.tries + 1 := by
  cases hc : st.cached with
  | some e =>
    rw [setup_pipeline_cached b k st e hc] at herr
    exact absurd (congrArg Prod.fst herr) (by simp)
  | none =>
    refine ⟨rfl, ?_⟩
    unfold setup_pipeline at herr
    rw [hc] at herr
    try dsimp only at herr
    cases hembed : b.embed st.tries with
    | none =>
      rw [hembed] at herr
      have h2 := congrArg Prod.snd herr
      simp only at h2
      subst h2
      exact ⟨rfl, rfl⟩
    | some ev =>
      rw [hembed] at herr
      try dsimp only at herr
      cases hllm : b.llm st.tries with
      | none =>
        rw [hllm] at herr
        have h2 := congrArg Prod.snd herr
        simp only at h2
        subst h2
        exact ⟨rfl, rfl⟩
      | some lv =>
        rw [hllm] at herr
        try dsimp only at herr
        cases hstore : b.store st.tries with
        | none =>
          rw [hstore] at herr
          have h2 := congrArg Prod.snd herr
          simp only at h2
          subst h2
          exact ⟨rfl, rfl⟩
        | some sv =>
          rw [hstore] at herr
          try dsimp only at herr
          cases hidx : b.indexFails st.tries with
          | true =>
            rw [if_pos hidx] at herr
            have h2 := congrArg Prod.snd herr
            simp only at h2
            subst h2
            exact ⟨rfl, rfl⟩
          | false =>
            rw [if_neg (by rw [hidx]; exact fun hx => Bool.noConfusion hx)] at herr
            try dsimp only at herr
            cases heng : b.engineFails st.tries with
            | true =>
              rw [if_pos heng] at herr
              have h2 := congrArg Prod.snd herr
              simp only at h2
              subst h2
              exact ⟨rfl, rfl⟩
            | false =>
              rw [if_neg (by rw [heng]; exact fun hx => Bool.noConfusion hx)] at herr
              exact absurd (congrArg Prod.fst herr) (by simp)

/-- Any call on an uncached state consumes exactly one construction
attempt, whether it succeeds or fails. -/
theorem setup_pipeline_tries_uncached (b : Builders) (k : Nat)
    (st : PipeState) (hc : st.cached = none) :
    (setup_pipeline b k st).2.tries = st.tries + 1 := by
  cases hres : setup_pipeline b k st with
  | mk r st' =>
    cases r with
    | error u => exact (setup_pipeline_err_char b k st u st' hres).2.2
    | ok e => exact (setup_pipeline_ok_char b k st e st' hc hres).2.2.1

/-- `query_knowledge_base` leaves exactly the state its implicit
`setup_pipeline` call produced. -/
theorem query_state_eq_setup_state (b : Builders)
    (runQuery : Engine → String → Except Unit QueryResponse)
    (q : String) (st : PipeState) :
    (query_knowledge_base b runQuery q st).2 = (setup_pipeline b 5 st).2 := by
  unfold query_knowledge_base
  cases hs : setup_pipeline b 5 st with
  | mk r st' =>
    cases r with
    | error u => rfl
    | ok e =>
      dsimp only
      cases runQuery e q with
      | error u => rfl
      | ok r => rfl

/-! ## C2 -/

/-- C2: from an uncached state, a successful `setup_pipeline` performs
each expensive construction step exactly once, and every later
sequential call is a no-op returning the same cached engine and leaving
the state unchanged — for any number of iterated calls. -/
theorem C2_setup_idempotent_construction_once (b : Builders) (k : Nat)
    (st : PipeState) (e : Engine) (st1 : PipeState)
    (hc : st.cached = none)
    (hok : setup_pipeline b k st = (.ok e, st1)) :
    (st1.embedCalls = st.embedCalls + 1 ∧ st1.llmCalls = st.llmCalls + 1 ∧
     st1.storeCalls = st.storeCalls + 1 ∧
     st1.indexCalls = st.indexCalls + 1 ∧
     st1.engineCalls = st.engineCalls + 1) ∧
    setup_pipeline b k st1 = (.ok e, st1) ∧
    (∀ n, setupIter b k n st1 = st1) := by
  have hchar := setup_pipeline_ok_char b k st e st1 hc hok
  have hcall := setup_pipeline_cached b k st1 e hchar.2.1
  refine ⟨⟨hchar.2.2.2.1, hchar.2.2.2.2.1, hchar.2.2.2.2.2.1,
    hchar.2.2.2.2.2.2.1, hchar.2.2.2.2.2.2.2⟩, hcall, ?_⟩
  intro n
  induction n with
  | zero => rfl
  | succ m ih =>
    show setupIter b k m (setup_pipeline b k st1).2 = st1
    rw [hcall]
    exact ih

/-- Witness for C2: all-succeeding builders from the fresh state cache
the engine after one construction and the second call is a no-op. -/
theorem C2_witness :
    (⟨some ⟨7, 4⟩, 1, 1, 1, 1, 1, 1⟩ : PipeState).engineCalls = 1 ∧
    setup_pipeline bAllOk 4 ⟨some ⟨7, 4⟩, 1, 1, 1, 1, 1, 1⟩ =
      (.ok ⟨7, 4⟩, ⟨some ⟨7, 4⟩, 1, 1, 1, 1, 1, 1⟩) :=
  ⟨(C2_setup_idempotent_construction_once bAllOk 4 initPipeState ⟨7, 4⟩
      ⟨some ⟨7, 4⟩, 1, 1, 1, 1, 1, 1⟩ rfl rfl).1.2.2.2.2,
   (C2_setup_idempotent_construction_once bAllOk 4 initPipeState ⟨7, 4⟩
      ⟨some ⟨7, 4⟩, 1, 1, 1, 1, 1, 1⟩ rfl rfl).2.1⟩

/-! ## C3 -/

/-- C3: `query_knowledge_base` never raises: for every builder
behaviour, query-engine behaviour, question and state it returns a
string — either the stripped extracted answer of a successful query, or
the fixed user-safe apology string whenever the implicit setup or the
query itself raises. -/
theorem C3_query_never_raises (b : Builders)
    (runQuery : Engine → String → Except Unit QueryResponse)
    (q : String) (st : PipeState) :
    (∃ e st' r, setup_pipeline b 5 st = (.ok e, st') ∧
      runQuery e q = .ok r ∧
      query_knowledge_base b runQuery q st = (extractResponseText r, st')) ∨
    (query_knowledge_base b runQuery q st).1 = apologyText := by
  unfold query_knowledge_base
  cases hs : setup_pipeline b 5 st with
  | mk res st' =>
    cases res with
    | error u => exact Or.inr rfl
    | ok e =>
      dsimp only
      cases hq : runQuery e q with
      | error u => exact Or.inr rfl
      | ok r => exact Or.inl ⟨e, st', r, rfl, hq, rfl⟩

/-! ## C4 -/

/-- C4: if any construction step fails, the engine is not cached — the
global stays unset so a later call re-runs the whole construction — and
the failure propagates out of `setup_pipeline` to its caller (in
particular to `query_knowledge_base`, whose implicit setup failure
yields the apology string); shown also concretely with an
embedding-model double that raises once then succeeds. -/
theorem C4_setup_failure_uncached_retryable :
    (∀ (b : Builders) (k : Nat) (st st' : PipeState) (u : Unit),
      setup_pipeline b k st = (.error u, st') →
      st'.cached = none ∧ st'.tries = st.tries + 1 ∧
      (setup_pipeline b k st').2.tries = st'.tries + 1) ∧
    (∀ (b : Builders)
      (runQuery : Engine → String → Except Unit QueryResponse)
      (q : String) (st st' : PipeState) (u : Unit),
      setup_pipeline b 5 st = (.error u, st') →
      query_knowledge_base b runQuery q st = (apologyText, st')) ∧
    (setup_pipeline bFailThenOk 5 initPipeState =
      (.error (), ⟨none, 1, 1, 0, 0, 0, 0⟩) ∧
     setup_pipeline bFailThenOk 5 ⟨none, 1, 1, 0, 0, 0, 0⟩ =
      (.ok ⟨7, 5⟩, ⟨some ⟨7, 5⟩, 2, 2, 1, 1, 1, 1⟩)) := by
  refine ⟨fun b k st st' u herr => ?_, fun b runQuery q st st' u herr => ?_,
    rfl, rfl⟩
  · have hchar := setup_pipeline_err_char b k st u st' herr
    exact ⟨hchar.2.1, hchar.2.2,
      setup_pipeline_tries_uncached b k st' hchar.2.1⟩
  · unfold query_knowledge_base
    rw [herr]

/-- Witness for C4: the once-failing builders leave the cache unset
after their first failed call. -/
theorem C4_witness :
    (⟨none, 1, 1, 0, 0, 0, 0⟩ : PipeState).cached = none :=
  (C4_setup_failure_uncached_retryable.1 bFailThenOk 5 initPipeState
    ⟨none, 1, 1, 0, 0, 0, 0⟩ () rfl).1

/-! ## C10 -/

/-- C10: after the first successful setup, the retrieval breadth is
fixed: the cached engine carries the first call's `similarity_top_k`,
any later call with a different breadth returns that same engine
unchanged, and `query_knowledge_base` always performs its implicit
setup with the default breadth 5. -/
theorem C10_breadth_fixed_query_default_five :
    (∀ (b : Builders) (k1 : Nat) (st : PipeState) (e : Engine)
      (st1 : PipeState), st.cached = none →
      setup_pipeline b k1 st = (.ok e, st1) →
      e.top_k = k1 ∧ ∀ k2, setup_pipeline b k2 st1 = (.ok e, st1)) ∧
    (∀ (b : Builders)
      (runQuery : Engine → String → Except Unit QueryResponse)
      (q : String) (st : PipeState) (e : Engine), st.cached = none →
      ((query_knowledge_base b runQuery q st).2).cached = some e →
      e.top_k = 5) := by
  constructor
  · intro b k1 st e st1 hc hok
    have hchar := setup_pipeline_ok_char b k1 st e st1 hc hok
    exact ⟨hchar.1, fun k2 => setup_pipeline_cached b k2 st1 e hchar.2.1⟩
  · intro b runQuery q st e hc hcache
    rw [query_state_eq_setup_state] at hcache
    cases hs : setup_pipeline b 5 st with
    | mk r st' =>
      cases r with
      | error u =>
        rw [hs] at hcache
        rw [(setup_pipeline_err_char b 5 st u st' hs).2.1] at hcache
        exact Option.noConfusion hcache
      | ok e' =>
        rw [hs] at hcache
        have hchar := setup_pipeline_ok_char b 5 st e' st' hc hs
        rw [hchar.2.1] at hcache
        rw [← Option.some.inj hcache]
        exact hchar.1

/-- Witness for C10: a first setup with breadth 9 builds an engine
whose breadth is 9. -/
theorem C10_witness : (⟨7, 9⟩ : Engine).top_k = 9 :=
  (C10_breadth_fixed_query_default_five.1 bAllOk 9 initPipeState ⟨7, 9⟩
    ⟨some ⟨7, 9⟩, 1, 1, 1, 1, 1, 1⟩ rfl rfl).1

end RagCore
